import Mathlib

/-!
Verification of the Freshrelease MCP server core
(`src/freshrelease_mcp/server.py`) via a shallow embedding.

Remote HTTP interactions are modelled as explicit inputs: every function
that performs a network fetch receives the fetched outcome (an
`Except FetchErr _` value, or a per-key oracle for batch resolution) as a
parameter.  JSON values are modelled by the inductive `JVal`; Python
dictionaries by association lists with Python `dict` update semantics
(`dictSet`, `dlookup`).  Python string operations (`.strip()`, `.lower()`,
`.split(c)`) are modelled by structurally recursive functions over
`List Char` so that all concrete computations reduce in the kernel.
-/

namespace FreshreleaseMCP

/-- Python whitespace characters recognised by `str.strip()` and `\s`. -/
def isPySpace (c : Char) : Bool :=
  c = ' ' || c = '\t' || c = '\n' || c = '\r' || c = '\x0b' || c = '\x0c'

/-- ASCII lower-casing of one character, as Python `str.lower()` does for
ASCII input. -/
def lowerChar (c : Char) : Char :=
  if 'A' ≤ c ∧ c ≤ 'Z' then Char.ofNat (c.toNat + 32) else c

/-- `str.strip()` on a character list. -/
def trimL (cs : List Char) : List Char :=
  ((cs.dropWhile isPySpace).reverse.dropWhile isPySpace).reverse

/-- `str.lower()` on a character list. -/
def lowerL (cs : List Char) : List Char := cs.map lowerChar

/-- Python `str.strip()`. -/
def pyStrip (s : String) : String := String.mk (trimL s.data)

/-- Python `str.lower()`. -/
def pyLower (s : String) : String := String.mk (lowerL s.data)

/-- Python `str.split(sep)` for a one-character separator: always returns at
least one (possibly empty) piece. -/
def charSplit (sep : Char) : List Char → List (List Char)
  | [] => [[]]
  | c :: rest =>
    if c = sep then [] :: charSplit sep rest
    else
      match charSplit sep rest with
      | g :: gs => (c :: g) :: gs
      | [] => [[c]]

/-- Python `str.split(sep)` on strings. -/
def pySplit (sep : Char) (s : String) : List String :=
  (charSplit sep s.data).map String.mk

/-- The `str(x).strip().lower()` normalisation applied throughout the server
to names being compared. -/
def normName (s : String) : String := pyLower (pyStrip s)

/-- JSON values, as returned by `resp.json()`. -/
inductive JVal where
  | jnull
  | jnum (n : Int)
  | jstr (s : String)
  | jarr (xs : List JVal)
  | jobj (fields : List (String × JVal))

/-- A Python dictionary with string keys, in insertion order. -/
abbrev Dict (α : Type) := List (String × α)

/-- Python dictionary lookup `d[k]` / membership `k in d`: the first binding
of the key (keys are unique in any dict produced by the source). -/
def dlookup {α : Type} : Dict α → String → Option α
  | [], _ => none
  | kv :: rest, k => if kv.1 = k then some kv.2 else dlookup rest k

/-- Python dictionary assignment `d[k] = v`: update the existing binding in
place, else append a new binding. -/
def dictSet {α : Type} : Dict α → String → α → Dict α
  | [], k, v => [(k, v)]
  | kv :: rest, k, v =>
    if kv.1 = k then (k, v) :: rest else kv :: dictSet rest k v

/-- Python `int(x)` on a JSON value (as used on the `id` field of fetched
issues / test cases); yields `none` where the Python call would raise. -/
def pyIntOf : JVal → Option Int
  | .jnum n => some n
  | .jstr s => s.toInt?
  | _ => none

/-- String join with `", "`, used by the Python `repr` of containers. -/
def joinComma : List String → String
  | [] => ""
  | [s] => s
  | s :: rest => s ++ ", " ++ joinComma rest

/-- Python `repr(v)` of a JSON value. -/
def pyRepr : JVal → String
  | .jnull => "None"
  | .jnum n => toString n
  | .jstr s => "'" ++ s ++ "'"
  | .jarr xs => "[" ++ joinComma (xs.attach.map (fun x => pyRepr x.1)) ++ "]"
  | .jobj fs =>
    "\x7b" ++
      joinComma (fs.attach.map (fun kv => "'" ++ kv.1.1 ++ "': " ++ pyRepr kv.1.2)) ++ "\x7d"
decreasing_by
  · have h := List.sizeOf_lt_of_mem x.2
    simp only [JVal.jarr.sizeOf_spec]
    omega
  · have h1 : sizeOf kv.1.2 < sizeOf kv.1 := by
      cases hkv : kv.1 with
      | mk a b => simp [hkv]
    have h2 := List.sizeOf_lt_of_mem kv.2
    simp only [JVal.jobj.sizeOf_spec]
    omega

/-- Python `str(v)` for a JSON value. -/
def pyStr : JVal → String
  | .jstr s => s
  | .jnull => "None"
  | .jnum n => toString n
  | v => pyRepr v

/-!
## Pagination decoder (`parse_link_header`)

The Python code matches each comma-separated segment of the header against
the regular expression `<(.+?)>;\s*rel="(.+?)"` and then searches the URL
group for `page=(\d+)`.  The matcher below implements exactly the
backtracking behaviour of `re.search` on those two patterns: earliest
start position wins, the lazy groups `(.+?)` take the shortest extent that
lets the rest of the pattern match, `.` matches anything but a newline,
and `(\d+)` is a maximal digit run.
-/

/-- Match `(.+?)"` (the lazy `rel` group followed by the closing quote):
the group is the shortest non-empty newline-free prefix ending at a `"`. -/
def relGroup : List Char → List Char → Option (List Char)
  | _, [] => none
  | acc, c :: rest =>
    if c = '"' ∧ acc ≠ [] then some acc.reverse
    else if c ≠ '\n' then relGroup (c :: acc) rest
    else none

/-- Match `;\s*rel="(.+?)"` at the start of the input. -/
def matchRelPart (cs : List Char) : Option (List Char) :=
  match cs with
  | ';' :: rest =>
    let rest2 := rest.dropWhile isPySpace
    if rest2.take 5 = ['r', 'e', 'l', '=', '"'] then relGroup [] (rest2.drop 5)
    else none
  | _ => none

/-- Match `(.+?)>;\s*rel="(.+?)"` (everything after the opening `<`): the
URL group is the shortest non-empty newline-free prefix whose following
`>` is succeeded by a matching `rel` part. -/
def urlGroup : List Char → List Char → Option (List Char × List Char)
  | _, [] => none
  | acc, c :: rest =>
    match (if c = '>' ∧ acc ≠ [] then (matchRelPart rest).map (fun rel => (acc.reverse, rel)) else none) with
    | some r => some r
    | none => if c ≠ '\n' then urlGroup (c :: acc) rest else none

/-- `re.search(r'<(.+?)>;\s*rel="(.+?)"', link)`: returns the two captured
groups of the earliest match, if any. -/
def searchLinkPattern : List Char → Option (List Char × List Char)
  | [] => none
  | c :: rest =>
    match (if c = '<' then urlGroup [] rest else none) with
    | some r => some r
    | none => searchLinkPattern rest

/-- Numeric value of a digit run. -/
def digitsVal (ds : List Char) : Nat := ds.foldl (fun a c => a * 10 + (c.toNat - 48)) 0

/-- `re.search(r'page=(\d+)', url)` followed by `int(...)` on the captured
group: earliest occurrence of `page=` followed by at least one digit; the
group is the maximal digit run there. -/
def searchPageNumber : List Char → Option Nat
  | [] => none
  | c :: rest =>
    if (c :: rest).take 5 = ['p', 'a', 'g', 'e', '='] ∧
        (((c :: rest).drop 5).head?.map Char.isDigit = some true) then
      some (digitsVal (((c :: rest).drop 5).takeWhile Char.isDigit))
    else searchPageNumber rest

/-- `parse_link_header` from the source: split the header on commas, run
the link pattern on each segment, extract the page number from the URL
group, and assign it to the pagination dictionary under the `rel` name.
The dictionary starts as `{"next": None, "prev": None}` and an empty
header is returned unchanged (`if not link_header`). -/
def parse_link_header (link_header : String) : Dict (Option Nat) :=
  let pagination : Dict (Option Nat) := [("next", none), ("prev", none)]
  if link_header = "" then pagination
  else
    (pySplit ',' link_header).foldl
      (fun pag link =>
        match searchLinkPattern link.data with
        | some (url, rel) =>
          match searchPageNumber url with
          | some n => dictSet pag (String.mk rel) (some n)
          | none => pag
        | none => pag)
      pagination

/-!
## Remote failures and fetched data

`FetchErr` stands for the exceptions a fetch can raise in the source: a
non-2xx response surfaced by `raise_for_status` or any other transport
fault.  Data structures mirror the JSON shapes the code reads via `.get`:
fields the code accesses with a bare `.get(key)` (which may yield `None`)
are `Option`s, fields read with `.get(key, "")` are plain strings.
-/

/-- A failed remote interaction (`httpx.HTTPStatusError` from
`raise_for_status`, or any other transport-level exception). -/
inductive FetchErr where
  | httpStatus (status : Nat)
  | transport (msg : String)
deriving DecidableEq

/-- One element of the `issue_types` listing: `t.get("name", "")` and
`t.get("id")`. -/
structure IssueTypeJ where
  id : Option Int
  name : String
deriving DecidableEq

/-- The `/project_issue_types` response: `it_data.get("issue_types", [])`. -/
structure IssueTypesResp where
  issue_types : List IssueTypeJ
deriving DecidableEq

/-- One element of the user-search listing: `item.get("id")`,
`item.get("name", "")`, `item.get("email", "")`. -/
structure UserJ where
  id : Option Int
  name : String
  email : String
deriving DecidableEq

/-!
## Create task (`fr_create_task`)
-/

/-- The protected core field names of `fr_create_task`. -/
def protected_keys : List String :=
  ["title", "description", "assignee_id", "status", "due_date", "issue_type_id"]

/-- Membership in the protected-key set. -/
def is_protected (k : String) : Bool := protected_keys.contains k

/-- The payload seeded from the explicit arguments of `fr_create_task`:
`{"title": title}` plus each optional core field when present. -/
def build_base_payload (title : String) (description : Option String)
    (assignee_id : Option Int) (status : Option String)
    (due_date : Option String) : Dict JVal :=
  let p : Dict JVal := [("title", .jstr title)]
  let p := match description with
    | some d => dictSet p "description" (.jstr d)
    | none => p
  let p := match assignee_id with
    | some a => dictSet p "assignee_id" (.jnum a)
    | none => p
  let p := match status with
    | some s => dictSet p "status" (.jstr s)
    | none => p
  match due_date with
  | some dd => dictSet p "due_date" (.jstr dd)
  | none => p

/-- The `additional_fields` merge loop: every entry whose key is protected
is skipped (`continue`); every other entry is written into the payload. -/
def merge_additional_fields (p : Dict JVal) (additional_fields : Dict JVal) : Dict JVal :=
  additional_fields.foldl
    (fun acc kv => if is_protected kv.1 then acc else dictSet acc kv.1 kv.2) p

/-- `issue_type_name or "task"`: Python `or` replaces both `None` and the
empty string by the default. -/
def effective_issue_type_name (issue_type_name : Option String) : String :=
  match issue_type_name with
  | none => "task"
  | some s => if s = "" then "task" else s

/-- The matching loop of the create-task issue-type resolution: the `id`
field of the first type whose normalised name equals `target` (the break
happens on the name match, so a matching type without an `id` yields
`none`, not a further search). -/
def issue_type_match_id (types : List IssueTypeJ) (target : String) : Option Int :=
  match types.find? (fun t => normName t.name == target) with
  | some t => t.id
  | none => none

/-- The user-choice logic of `fr_create_task`: inside a non-empty result
list, prefer the first exact (stripped, lowered, non-empty) email match,
then the first such name match, then the first element; each tier takes
the chosen item's `id` field and a tier whose chosen item has no `id`
falls through to the next (`chosen_id` stays `None` after the `break`). -/
def choose_user_id (users : List UserJ) (query : String) : Option Int :=
  match users with
  | [] => none
  | u0 :: _ =>
    let lowered := pyLower (pyStrip query)
    let c1 :=
      match users.find? (fun u => normName u.email != "" && normName u.email == lowered) with
      | some u => u.id
      | none => none
    match c1 with
    | some i => some i
    | none =>
      let c2 :=
        match users.find? (fun u => normName u.name != "" && normName u.name == lowered) with
        | some u => u.id
        | none => none
      match c2 with
      | some i => some i
      | none => u0.id

/-- The structured failures `fr_create_task` can return before its
mutating POST. -/
inductive CreateTaskErr where
  | issueTypeRemote (e : FetchErr)
  | issueTypeNotFound (name : String) (details : IssueTypesResp)
  | userRemote (e : FetchErr)
  | userNotFound (query : String)
deriving DecidableEq

/-- `fr_create_task`: build the payload (base fields plus
protected-filtered `additional_fields`), always resolve the issue type
name (defaulted to `"task"`), then resolve `user` to an assignee only if
the payload has no `assignee_id` and `user` is a non-empty string.  A
success is the final request body of the single mutating POST; any
resolution failure aborts before that call. -/
def fr_create_task (issue_types_resp : Except FetchErr IssueTypesResp)
    (users_resp : Except FetchErr (List UserJ))
    (title : String) (description : Option String) (assignee_id : Option Int)
    (status : Option String) (due_date : Option String)
    (issue_type_name : Option String) (user : Option String)
    (additional_fields : Dict JVal) : Except CreateTaskErr (Dict JVal) :=
  let payload :=
    merge_additional_fields (build_base_payload title description assignee_id status due_date)
      additional_fields
  let name_to_resolve := effective_issue_type_name issue_type_name
  match issue_types_resp with
  | .error e => .error (.issueTypeRemote e)
  | .ok it_data =>
    match issue_type_match_id it_data.issue_types (normName name_to_resolve) with
    | none => .error (.issueTypeNotFound name_to_resolve it_data)
    | some matched_id =>
      let payload := dictSet payload "issue_type_id" (.jnum matched_id)
      match user with
      | none => .ok payload
      | some u =>
        if (dlookup payload "assignee_id").isNone ∧ u ≠ "" then
          match users_resp with
          | .error e => .error (.userRemote e)
          | .ok users =>
            match choose_user_id users u with
            | none => .error (.userNotFound u)
            | some chosen_id => .ok (dictSet payload "assignee_id" (.jnum chosen_id))
        else .ok payload

/-- Failures of `fr_get_issue_type_by_name` (the standalone tool): its
not-found branch returns only a message, with no diagnostic listing. -/
inductive GetIssueTypeErr where
  | notFound (name : String)
deriving DecidableEq

/-- The response processing of `fr_get_issue_type_by_name` for a
list-shaped response: return the first item whose normalised name equals
the normalised query, else a bare not-found error. -/
def fr_get_issue_type_by_name_core (data : List IssueTypeJ) (issue_type_name : String) :
    Except GetIssueTypeErr IssueTypeJ :=
  match data.find? (fun t => normName t.name == normName issue_type_name) with
  | some t => .ok t
  | none => .error (.notFound issue_type_name)

/-!
## Batch key-to-id resolution

Each key is fetched individually; `fetch` is the oracle giving the remote
outcome per key (`resp.raise_for_status()` failures and transport faults
are `.error`, a parsed JSON body is `.ok`).
-/

/-- How one batch step can fail: a remote error while fetching the key, or
a successful response that is not a dict carrying an `id`. -/
inductive BatchErr where
  | remote (e : FetchErr)
  | malformed (data : JVal)

/-- `isinstance(data, dict) and "id" in data` followed by
`int(data["id"])`. -/
def jGetId (data : JVal) : Option Int :=
  match data with
  | .jobj fields =>
    match dlookup fields "id" with
    | some v => pyIntOf v
    | none => none
  | _ => none

/-- The id a key resolves to under `fetch`, when it resolves at all. -/
def keyId {K : Type} (fetch : K → Except FetchErr JVal) (k : K) : Option Int :=
  match fetch k with
  | .ok data => jGetId data
  | .error _ => none

/-- The failure produced at a key that does not resolve. -/
def keyFailure {K : Type} (fetch : K → Except FetchErr JVal) (k : K) : BatchErr :=
  match fetch k with
  | .error e => .remote e
  | .ok data => .malformed data

/-- `issue_ids_from_keys`: resolve each issue key in order via an
individual GET; the first remote error or id-less response aborts the
whole batch, discarding the ids already resolved. -/
def issue_ids_from_keys {K : Type} (fetch : K → Except FetchErr JVal) :
    List K → Except BatchErr (List Int)
  | [] => .ok []
  | k :: ks =>
    match fetch k with
    | .error e => .error (.remote e)
    | .ok data =>
      match jGetId data with
      | none => .error (.malformed data)
      | some i =>
        match issue_ids_from_keys fetch ks with
        | .error e => .error e
        | .ok rest => .ok (i :: rest)

/-- `testcase_id_from_key`: fetch one test case by key and extract its
`id`, failing like one step of the issue batch. -/
def testcase_id_from_key {K : Type} (fetch : K → Except FetchErr JVal) (key : K) :
    Except BatchErr Int :=
  match fetch key with
  | .error e => .error (.remote e)
  | .ok data =>
    match jGetId data with
    | none => .error (.malformed data)
    | some i => .ok i

/-- The test-case resolution loop of `fr_link_testcase_issues`: one
`testcase_id_from_key` call per key, in order, appending to the resolved
list; the first failure aborts. -/
def testcase_ids_from_keys {K : Type} (fetch : K → Except FetchErr JVal) :
    List K → Except BatchErr (List Int)
  | [] => .ok []
  | k :: ks =>
    match testcase_id_from_key fetch k with
    | .error e => .error e
    | .ok i =>
      match testcase_ids_from_keys fetch ks with
      | .error e => .error e
      | .ok rest => .ok (i :: rest)

/-- The body of the single mutating PUT of `fr_link_testcase_issues`:
`{"ids": ..., "test_case": {"issue_ids": ...}}`. -/
structure LinkPayload where
  ids : List Int
  issue_ids : List Int

/-- `fr_link_testcase_issues`: resolve the test-case keys, then the issue
keys, and only when both batches fully succeed issue the bulk update; a
success value is the body of that single mutating call. -/
def fr_link_testcase_issues {K : Type} (fetchTC fetchIssue : K → Except FetchErr JVal)
    (testcase_keys issue_keys : List K) : Except BatchErr LinkPayload :=
  match testcase_ids_from_keys fetchTC testcase_keys with
  | .error e => .error e
  | .ok resolved_testcase_ids =>
    match issue_ids_from_keys fetchIssue issue_keys with
    | .error e => .error e
    | .ok resolved_issue_ids => .ok ⟨resolved_testcase_ids, resolved_issue_ids⟩

/-!
## Section hierarchy resolution (`resolve_section_hierarchy_to_ids`)
-/

/-- One fetched section: `section.get("id")`, `section.get("name", "")`,
`section.get("parent_id")`. -/
structure SectionJ where
  id : Option Int
  name : String
  parent_id : Option Int
deriving DecidableEq

/-- The `hierarchy` mapping built from the sections listing: the children
recorded under a parent id, in listing order. -/
def section_children (sections : List SectionJ) (pid : Int) : List SectionJ :=
  sections.filter (fun s => s.parent_id = some pid)

/-- The `root_sections` partition: sections with no `parent_id`. -/
def section_roots (sections : List SectionJ) : List SectionJ :=
  sections.filter (fun s => s.parent_id = none)

/-- The recursive `find_sections_by_path` closure: at each level keep the
sections of the current breadth whose normalised name equals the lowered
current segment; on the final segment collect their ids, otherwise recurse
into each match's children with the remaining path. -/
def find_sections_by_path (hierarchy : Int → List SectionJ) :
    List String → List SectionJ → List Int
  | [], sections_list => sections_list.filterMap (fun s => s.id)
  | p :: rest, sections_list =>
    sections_list.flatMap (fun s =>
      if normName s.name = pyLower p then
        match s.id with
        | some section_id =>
          match rest with
          | [] => [section_id]
          | _ :: _ => find_sections_by_path hierarchy rest (hierarchy section_id)
        | none => []
      else [])

/-- `resolve_section_hierarchy_to_ids` on an already-fetched sections
listing: split the path on `>`, strip each part, return `[]` when the
first part is empty, else walk the forest from the roots. -/
def resolve_section_hierarchy_to_ids (sections : List SectionJ) (section_path : String) :
    List Int :=
  let path_parts := (pySplit '>' section_path).map pyStrip
  match path_parts with
  | [] => []
  | p :: _ =>
    if p = "" then []
    else find_sections_by_path (section_children sections) path_parts (section_roots sections)

/-- The recursion depth `find_sections_by_path` actually uses on given
data: `1` for the current call plus the deepest recursive call made on
behalf of a matched section.  This observer mirrors the recursion of
`find_sections_by_path` step for step. -/
def find_sections_depth (hierarchy : Int → List SectionJ) :
    List String → List SectionJ → Nat
  | [], _ => 1
  | p :: rest, sections_list =>
    1 + (sections_list.map (fun s =>
      if normName s.name = pyLower p then
        match s.id with
        | some section_id =>
          match rest with
          | [] => 0
          | _ :: _ => find_sections_depth hierarchy rest (hierarchy section_id)
        | none => 0
      else 0)).foldl Nat.max 0

/-!
## Populate test run (`fr_add_testcases_to_testrun`)
-/

/-- `Union[str, int]`, the type of caller-supplied keys and ids. -/
inductive StrInt where
  | ofStr (s : String)
  | ofInt (n : Int)
deriving DecidableEq

/-- Python `str(x)` on a `Union[str, int]` value. -/
def strIntStr : StrInt → String
  | .ofStr s => s
  | .ofInt n => toString n

/-- The error dictionaries `fr_add_testcases_to_testrun` can return: a
test-case key whose fetch failed or whose response carries no `id`, or a
failure while fetching the sections listing for a hierarchy path. -/
inductive TestRunErr where
  | tcRemote (key : StrInt) (e : FetchErr)
  | tcMalformed (key : StrInt) (data : JVal)
  | sectionRemote (path : String) (e : FetchErr)

/-- The body of the single mutating PUT
`/{project}/test_runs/{id}/test_cases`. -/
structure TestRunPayload where
  filter_rule : List JVal
  test_case_ids : List String
  section_subtree_ids : List String
  section_ids : List String

/-- The test-case resolution loop of `fr_add_testcases_to_testrun`: per
key, fetch and keep `str(tc_data["id"])`; the first failing key aborts
with its error dictionary. -/
def testrun_resolve_testcases (fetchTC : StrInt → Except FetchErr JVal) :
    List StrInt → Except TestRunErr (List String)
  | [] => .ok []
  | key :: keys =>
    match fetchTC key with
    | .error e => .error (.tcRemote key e)
    | .ok tc_data =>
      match tc_data with
      | .jobj fields =>
        match dlookup fields "id" with
        | some v =>
          match testrun_resolve_testcases fetchTC keys with
          | .error e => .error e
          | .ok rest => .ok (pyStr v :: rest)
        | none => .error (.tcMalformed key tc_data)
      | _ => .error (.tcMalformed key tc_data)

/-- The hierarchy-path resolution loop: per path, fetch the sections
listing (the same remote endpoint each time, so the same outcome) and
extend the accumulator with the stringified resolved ids; a fetch failure
aborts with that path's error dictionary. -/
def testrun_resolve_paths (fetchSections : Except FetchErr (List SectionJ)) :
    List String → Except TestRunErr (List String)
  | [] => .ok []
  | path :: paths =>
    match fetchSections with
    | .error e => .error (.sectionRemote path e)
    | .ok sections =>
      match testrun_resolve_paths fetchSections paths with
      | .error e => .error e
      | .ok rest =>
        .ok ((resolve_section_hierarchy_to_ids sections path).map (fun sid => toString sid) ++ rest)

/-- `fr_add_testcases_to_testrun`: resolve the test-case keys, then the
hierarchy paths (skipped when the argument is absent), concatenate the
path-resolved ids with the stringified caller-supplied
`section_subtree_ids`, and build the PUT body with `filter_rule` and
`section_ids` passed through (absent collections default to empty).  A
success value is the body of the single mutating call. -/
def fr_add_testcases_to_testrun (fetchTC : StrInt → Except FetchErr JVal)
    (fetchSections : Except FetchErr (List SectionJ))
    (test_case_keys : List StrInt)
    (section_hierarchy_paths : Option (List String))
    (section_subtree_ids : Option (List StrInt))
    (section_ids : Option (List StrInt))
    (filter_rule : Option (List JVal)) : Except TestRunErr TestRunPayload :=
  match testrun_resolve_testcases fetchTC test_case_keys with
  | .error e => .error e
  | .ok resolved_test_case_ids =>
    match testrun_resolve_paths fetchSections
        (match section_hierarchy_paths with | some ps => ps | none => []) with
    | .error e => .error e
    | .ok resolved_section_subtree_ids =>
      let all_section_subtree_ids :=
        resolved_section_subtree_ids ++
          (match section_subtree_ids with | some l => l | none => []).map strIntStr
      .ok
        { filter_rule := match filter_rule with | some fr => fr | none => []
          test_case_ids := resolved_test_case_ids
          section_subtree_ids := all_section_subtree_ids
          section_ids := (match section_ids with | some l => l | none => []).map strIntStr }

/-!
## Statements taken from the spec's words (for comparison with the code)
-/

/-- The user tie-break exactly as the claim words it: the first user whose
email equals the query case-insensitively, failing that the first whose
name does, failing that the first element.  (Stated from the spec, to be
compared with `choose_user_id` from the source.) -/
def user_resolve_per_claim (users : List UserJ) (q : String) : Option Int :=
  match users.find? (fun u => pyLower u.email == pyLower q) with
  | some u => u.id
  | none =>
    match users.find? (fun u => pyLower u.name == pyLower q) with
    | some u => u.id
    | none => users.head?.bind (fun u => u.id)

/-- The amended user tie-break: both sides whitespace-stripped and
lowercased before comparison, and a user whose stripped email (resp.
name) is empty never matches tiers one and two. -/
def user_resolve_normalized (users : List UserJ) (q : String) : Option Int :=
  match users.find? (fun u => normName u.email != "" && normName u.email == normName q) with
  | some u => u.id
  | none =>
    match users.find? (fun u => normName u.name != "" && normName u.name == normName q) with
    | some u => u.id
    | none => users.head?.bind (fun u => u.id)

/-- Declarative description of one matching branch of the section walk:
`MatchesPath hierarchy path l i` holds when some section of the current
breadth `l` carries the first path segment's name (normalised), and the
rest of the path matches below it, ending in a section with id `i`. -/
inductive MatchesPath (hierarchy : Int → List SectionJ) :
    List String → List SectionJ → Int → Prop where
  | last (p : String) (l : List SectionJ) (s : SectionJ) (i : Int) :
      s ∈ l → normName s.name = pyLower p → s.id = some i →
      MatchesPath hierarchy [p] l i
  | step (p : String) (rest : List String) (l : List SectionJ) (s : SectionJ)
      (j i : Int) :
      rest ≠ [] → s ∈ l → normName s.name = pyLower p → s.id = some j →
      MatchesPath hierarchy rest (hierarchy j) i →
      MatchesPath hierarchy (p :: rest) l i

/-!
## Concrete data used by witnesses and counterexamples
-/

/-- A fetch oracle under which every key `k` resolves to a dict
`{"id": k}`. -/
def exFetchGood : Nat → Except FetchErr JVal :=
  fun k => .ok (.jobj [("id", .jnum (k : Int))])

/-- A fetch oracle under which key `0` yields a successful response with
no `id` field and every other key resolves. -/
def exFetchPartial : Nat → Except FetchErr JVal :=
  fun k => if k = 0 then .ok (.jobj []) else .ok (.jobj [("id", .jnum (k : Int))])

/-- The spec's example forest: a root `A` with two sibling children both
named `B`, each containing a child named `C`. -/
def sampleForest : List SectionJ :=
  [⟨some 1, "A", none⟩, ⟨some 2, "B", some 1⟩, ⟨some 3, "B", some 1⟩,
   ⟨some 4, "C", some 2⟩, ⟨some 5, "C", some 3⟩]

/-- The claim C6 example forest: path `A > B` resolves to id `5`. -/
def c6Sections : List SectionJ := [⟨some 1, "A", none⟩, ⟨some 5, "B", some 1⟩]

/-!
## Helper lemmas about dictionaries and the create-task payload
-/

theorem dlookup_dictSet_self {α : Type} (d : Dict α) (k : String) (v : α) :
    dlookup (dictSet d k v) k = some v := by
  induction d with
  | nil => simp [dictSet, dlookup]
  | cons kv rest ih =>
    obtain ⟨k1, v1⟩ := kv
    by_cases h : k1 = k
    · subst h
      simp [dictSet, dlookup]
    · simp [dictSet, h, dlookup, ih]

theorem dlookup_dictSet_ne {α : Type} (d : Dict α) (k k' : String) (v : α)
    (h : k' ≠ k) : dlookup (dictSet d k v) k' = dlookup d k' := by
  induction d with
  | nil => simp [dictSet, dlookup, Ne.symm h]
  | cons kv rest ih =>
    obtain ⟨k1, v1⟩ := kv
    by_cases hk : k1 = k
    · subst hk
      simp [dictSet, dlookup, Ne.symm h]
    · simp [dictSet, hk, dlookup, ih]

theorem merge_additional_fields_cons (p : Dict JVal) (kv : String × JVal)
    (rest : Dict JVal) :
    merge_additional_fields p (kv :: rest)
      = merge_additional_fields (if is_protected kv.1 then p else dictSet p kv.1 kv.2) rest :=
  rfl

theorem merge_additional_fields_filter (p : Dict JVal) (af : Dict JVal) :
    merge_additional_fields p af
      = merge_additional_fields p (af.filter (fun kv => !is_protected kv.1)) := by
  induction af generalizing p with
  | nil => rfl
  | cons kv rest ih =>
    by_cases h : is_protected kv.1
    · rw [merge_additional_fields_cons, if_pos h]
      simp only [List.filter_cons, h, Bool.not_true]
      exact ih p
    · rw [merge_additional_fields_cons, if_neg h]
      have hf : (!is_protected kv.1) = true := by simp [h]
      simp only [List.filter_cons, hf, if_true]
      rw [merge_additional_fields_cons, if_neg h]
      exact ih (dictSet p kv.1 kv.2)

theorem dlookup_merge_protected (p : Dict JVal) (af : Dict JVal) (k : String)
    (hk : is_protected k = true) :
    dlookup (merge_additional_fields p af) k = dlookup p k := by
  induction af generalizing p with
  | nil => rfl
  | cons kv rest ih =>
    rw [merge_additional_fields_cons]
    by_cases h : is_protected kv.1
    · rw [if_pos h]
      exact ih p
    · rw [if_neg h, ih (dictSet p kv.1 kv.2), dlookup_dictSet_ne]
      intro hkk
      rw [hkk] at hk
      simp [hk] at h

theorem dlookup_merge_not_mem (p : Dict JVal) (af : Dict JVal) (k : String) :
    k ∉ af.map Prod.fst → dlookup (merge_additional_fields p af) k = dlookup p k := by
  induction af generalizing p with
  | nil => exact fun _ => rfl
  | cons kv rest ih =>
    intro hk
    have hk1 : kv.1 ≠ k := by
      intro h
      exact hk (by simp [h])
    have hkr : k ∉ rest.map Prod.fst := by
      intro h
      exact hk (by simp [h])
    rw [merge_additional_fields_cons]
    by_cases h : is_protected kv.1
    · rw [if_pos h]
      exact ih p hkr
    · rw [if_neg h, ih (dictSet p kv.1 kv.2) hkr,
        dlookup_dictSet_ne _ _ _ _ (Ne.symm hk1)]

theorem dlookup_merge_mem_nodup (p : Dict JVal) (af : Dict JVal) (k : String) (v : JVal)
    (hk : is_protected k = false) :
    (k, v) ∈ af → (af.map Prod.fst).Nodup →
      dlookup (merge_additional_fields p af) k = some v := by
  induction af generalizing p with
  | nil => exact fun hmem _ => absurd hmem (List.not_mem_nil _)
  | cons kv rest ih =>
    intro hmem hnd
    simp only [List.map_cons, List.nodup_cons] at hnd
    rw [merge_additional_fields_cons]
    rcases List.mem_cons.mp hmem with heq | hrest
    · have hk1 : kv.1 = k := by rw [← heq]
      have hv1 : kv.2 = v := by rw [← heq]
      have hnp : ¬ is_protected kv.1 = true := by
        rw [hk1, hk]
        simp
      rw [if_neg hnp, dlookup_merge_not_mem _ _ _ (by rw [← hk1]; exact hnd.1), hk1, hv1,
        dlookup_dictSet_self]
    · by_cases h : is_protected kv.1
      · rw [if_pos h]
        exact ih p hrest hnd.2
      · rw [if_neg h]
        exact ih (dictSet p kv.1 kv.2) hrest hnd.2

theorem base_payload_status_some (t : String) (d : Option String) (a : Option Int)
    (s : String) (dd : Option String) :
    dlookup (build_base_payload t d a (some s) dd) "status" = some (.jstr s) := by
  unfold build_base_payload
  cases d <;> cases a <;> cases dd <;>
    simp [dictSet, dlookup]

theorem base_payload_status_none (t : String) (d : Option String) (a : Option Int)
    (dd : Option String) :
    dlookup (build_base_payload t d a none dd) "status" = none := by
  unfold build_base_payload
  cases d <;> cases a <;> cases dd <;>
    simp [dictSet, dlookup]

theorem base_payload_due_date_none (t : String) (d : Option String) (a : Option Int)
    (s : Option String) :
    dlookup (build_base_payload t d a s none) "due_date" = none := by
  unfold build_base_payload
  cases d <;> cases a <;> cases s <;>
    simp [dictSet, dlookup]

/-- On the success path, any key other than `issue_type_id` and
`assignee_id` reads from the final request body exactly as from the merged
base-plus-additional-fields payload: the later resolution steps only ever
write those two keys. -/
theorem create_task_ok_lookup (itr : Except FetchErr IssueTypesResp)
    (ur : Except FetchErr (List UserJ)) (t : String) (d : Option String)
    (a : Option Int) (s : Option String) (dd : Option String)
    (itn : Option String) (usr : Option String) (af : Dict JVal)
    (body : Dict JVal) (k : String)
    (hok : fr_create_task itr ur t d a s dd itn usr af = .ok body)
    (h1 : k ≠ "issue_type_id") (h2 : k ≠ "assignee_id") :
    dlookup body k
      = dlookup (merge_additional_fields (build_base_payload t d a s dd) af) k := by
  cases itr with
  | error e => simp [fr_create_task] at hok
  | ok it_data =>
    cases hmid : issue_type_match_id it_data.issue_types
        (normName (effective_issue_type_name itn)) with
    | none => simp [fr_create_task, hmid] at hok
    | some mid =>
      cases usr with
      | none =>
        simp only [fr_create_task, hmid, Except.ok.injEq] at hok
        rw [← hok, dlookup_dictSet_ne _ _ _ _ h1]
      | some u =>
        simp only [fr_create_task, hmid] at hok
        split at hok
        · cases ur with
          | error e => simp at hok
          | ok users =>
            cases hch : choose_user_id users u with
            | none => simp [hch] at hok
            | some cid =>
              simp only [hch, Except.ok.injEq] at hok
              rw [← hok, dlookup_dictSet_ne _ _ _ _ h2, dlookup_dictSet_ne _ _ _ _ h1]
        · simp only [Except.ok.injEq] at hok
          rw [← hok, dlookup_dictSet_ne _ _ _ _ h1]

/-!
## Claim theorems
-/

/-- C9: the pagination decoder maps the two-link header of the spec to
`next = 2, prev = 1`, maps the empty header to the all-absent record, and
silently skips malformed segments (a partially-parseable header still
decodes, with only its well-formed segment contributing). -/
theorem claim_C9_link_header_decoding :
    parse_link_header "<https://x/y?page=2>; rel=\"next\", <https://x/y?page=1>; rel=\"prev\""
        = [("next", some 2), ("prev", some 1)]
    ∧ parse_link_header "" = [("next", none), ("prev", none)]
    ∧ parse_link_header "garbage stuff, <https://x/y?page=4>; rel=\"next\""
        = [("next", some 4), ("prev", none)]
    ∧ parse_link_header "<https://x/y?page=3>; rel=broken"
        = [("next", none), ("prev", none)] := by
  exact ⟨by decide, by decide, by decide, by decide⟩

/-- C2: in create-task, (1) the final result is unchanged when the
protected-key entries of `additional_fields` are removed beforehand —
they are silently dropped; (2) an explicitly passed `status` argument is
the `status` of the final request body regardless of `additional_fields`
(in particular of an `additional_fields` entry `"status" ↦ "blocked"`);
(3) every non-protected entry of `additional_fields` is passed through to
the final request body. -/
theorem claim_C2_create_task_protected_merge :
    (∀ (itr : Except FetchErr IssueTypesResp) (ur : Except FetchErr (List UserJ))
        (t : String) (d : Option String) (a : Option Int) (s : Option String)
        (dd : Option String) (itn usr : Option String) (af : Dict JVal),
      fr_create_task itr ur t d a s dd itn usr af
        = fr_create_task itr ur t d a s dd itn usr
            (af.filter (fun kv => !is_protected kv.1)))
    ∧ (∀ (itr : Except FetchErr IssueTypesResp) (ur : Except FetchErr (List UserJ))
        (t : String) (d : Option String) (a : Option Int) (s : String)
        (dd : Option String) (itn usr : Option String) (af : Dict JVal)
        (body : Dict JVal),
      fr_create_task itr ur t d a (some s) dd itn usr af = .ok body →
      dlookup body "status" = some (.jstr s))
    ∧ (∀ (itr : Except FetchErr IssueTypesResp) (ur : Except FetchErr (List UserJ))
        (t : String) (d : Option String) (a : Option Int) (s : Option String)
        (dd : Option String) (itn usr : Option String) (af : Dict JVal)
        (body : Dict JVal) (k : String) (v : JVal),
      fr_create_task itr ur t d a s dd itn usr af = .ok body →
      (k, v) ∈ af → is_protected k = false → (af.map Prod.fst).Nodup →
      dlookup body k = some v) := by
  refine ⟨?_, ?_, ?_⟩
  · intro itr ur t d a s dd itn usr af
    unfold fr_create_task
    rw [merge_additional_fields_filter]
  · intro itr ur t d a s dd itn usr af body hok
    rw [create_task_ok_lookup itr ur t d a (some s) dd itn usr af body "status" hok
        (by decide) (by decide),
      dlookup_merge_protected _ _ _ (by decide), base_payload_status_some]
  · intro itr ur t d a s dd itn usr af body k v hok hmem hkp hnd
    have h1 : k ≠ "issue_type_id" := by
      rintro rfl
      simp [is_protected, protected_keys] at hkp
    have h2 : k ≠ "assignee_id" := by
      rintro rfl
      simp [is_protected, protected_keys] at hkp
    rw [create_task_ok_lookup itr ur t d a s dd itn usr af body k hok h1 h2]
    exact dlookup_merge_mem_nodup _ _ _ _ hkp hmem hnd

/-- Witness for C2 at concrete inputs: with an explicit `status = "open"`
and `additional_fields = {"status": "blocked", "custom": 3}`, dropping the
protected `"status"` entry leaves the result unchanged, the final body's
`status` is the explicit `"open"`, and the non-protected `"custom"` entry
is passed through. -/
theorem claim_C2_witness :
    fr_create_task (Except.ok ⟨[⟨some 9, "task"⟩]⟩) (Except.ok []) "t" none none
        (some "open") none none none
        [("status", JVal.jstr "blocked"), ("custom", JVal.jnum 3)]
      = fr_create_task (Except.ok ⟨[⟨some 9, "task"⟩]⟩) (Except.ok []) "t" none none
        (some "open") none none none [("custom", JVal.jnum 3)]
    ∧ dlookup [("title", JVal.jstr "t"), ("status", JVal.jstr "open"),
        ("custom", JVal.jnum 3), ("issue_type_id", JVal.jnum 9)] "status"
        = some (JVal.jstr "open")
    ∧ dlookup [("title", JVal.jstr "t"), ("status", JVal.jstr "open"),
        ("custom", JVal.jnum 3), ("issue_type_id", JVal.jnum 9)] "custom"
        = some (JVal.jnum 3) := by
  refine ⟨?_, ?_, ?_⟩
  · exact claim_C2_create_task_protected_merge.1 (Except.ok ⟨[⟨some 9, "task"⟩]⟩)
      (Except.ok []) "t" none none (some "open") none none none
      [("status", JVal.jstr "blocked"), ("custom", JVal.jnum 3)]
  · exact claim_C2_create_task_protected_merge.2.1 (Except.ok ⟨[⟨some 9, "task"⟩]⟩)
      (Except.ok []) "t" none none "open" none none none
      [("status", JVal.jstr "blocked"), ("custom", JVal.jnum 3)] _ rfl
  · exact claim_C2_create_task_protected_merge.2.2 (Except.ok ⟨[⟨some 9, "task"⟩]⟩)
      (Except.ok []) "t" none none (some "open") none none none
      [("status", JVal.jstr "blocked"), ("custom", JVal.jnum 3)] _ "custom" (JVal.jnum 3)
      rfl (List.mem_cons_of_mem _ (List.mem_cons_self _ _)) (by decide) (by decide)

/-- C10: the protected-key filter is unconditional — with no explicit
`status` (resp. `due_date`) argument, the final request body of a
successful create-task has no `status` (resp. `due_date`) entry at all,
whatever `additional_fields` contained. -/
theorem claim_C10_unconditional_protected_filter :
    (∀ (itr : Except FetchErr IssueTypesResp) (ur : Except FetchErr (List UserJ))
        (t : String) (d : Option String) (a : Option Int) (dd : Option String)
        (itn usr : Option String) (af : Dict JVal) (body : Dict JVal),
      fr_create_task itr ur t d a none dd itn usr af = .ok body →
      dlookup body "status" = none)
    ∧ (∀ (itr : Except FetchErr IssueTypesResp) (ur : Except FetchErr (List UserJ))
        (t : String) (d : Option String) (a : Option Int) (s : Option String)
        (itn usr : Option String) (af : Dict JVal) (body : Dict JVal),
      fr_create_task itr ur t d a s none itn usr af = .ok body →
      dlookup body "due_date" = none) := by
  constructor
  · intro itr ur t d a dd itn usr af body hok
    rw [create_task_ok_lookup itr ur t d a none dd itn usr af body "status" hok
        (by decide) (by decide),
      dlookup_merge_protected _ _ _ (by decide), base_payload_status_none]
  · intro itr ur t d a s itn usr af body hok
    rw [create_task_ok_lookup itr ur t d a s none itn usr af body "due_date" hok
        (by decide) (by decide),
      dlookup_merge_protected _ _ _ (by decide), base_payload_due_date_none]

/-- Witness for C10 at a concrete input: `additional_fields` supplies
`status` and `due_date` while the explicit arguments are absent, and the
final body contains neither key. -/
theorem claim_C10_witness :
    dlookup [("title", JVal.jstr "t"), ("issue_type_id", JVal.jnum 9)] "status" = none
    ∧ dlookup [("title", JVal.jstr "t"), ("issue_type_id", JVal.jnum 9)] "due_date" = none := by
  constructor
  · exact claim_C10_unconditional_protected_filter.1 (Except.ok ⟨[⟨some 9, "task"⟩]⟩)
      (Except.ok []) "t" none none none none none
      [("status", JVal.jstr "blocked"), ("due_date", JVal.jstr "2025-01-01")] _ rfl
  · exact claim_C10_unconditional_protected_filter.2 (Except.ok ⟨[⟨some 9, "task"⟩]⟩)
      (Except.ok []) "t" none none none none none
      [("status", JVal.jstr "blocked"), ("due_date", JVal.jstr "2025-01-01")] _ rfl

theorem find?_eq_some_of_unique {α : Type} (p : α → Bool) (l : List α) (a : α)
    (ha : a ∈ l) (hpa : p a = true)
    (huniq : ∀ x ∈ l, p x = true → x = a) : l.find? p = some a := by
  induction l with
  | nil => cases ha
  | cons hd tl ih =>
    by_cases hphd : p hd = true
    · have hhd : hd = a := huniq hd (List.mem_cons_self _ _) hphd
      subst hhd
      simp [List.find?_cons, hphd]
    · have hpf : p hd = false := by
        cases hh : p hd
        · rfl
        · exact absurd hh hphd
      have ha' : a ∈ tl := by
        rcases List.mem_cons.mp ha with h | h
        · rw [h] at hpa
          rw [hpa] at hpf
          cases hpf
        · exact h
      simp only [List.find?_cons, hpf, cond_false]
      exact ih ha' (fun x hx hpx => huniq x (List.mem_cons_of_mem _ hx) hpx)

/-- C3: under the spec's data model (every fetched user carries an
integer id), the user resolver yields no id exactly when the search result
collection is empty; a non-empty collection always yields an id through
one of the three tiers. -/
theorem claim_C3_user_resolver_notfound_iff_empty :
    ∀ (users : List UserJ) (q : String),
      (∀ u ∈ users, (u.id).isSome) →
      (choose_user_id users q = none ↔ users = []) := by
  intro users q h
  constructor
  · intro hnone
    cases users with
    | nil => rfl
    | cons u0 rest =>
      exfalso
      simp only [choose_user_id] at hnone
      cases hf1 : (u0 :: rest).find?
          (fun u => normName u.email != "" && normName u.email == pyLower (pyStrip q)) with
      | some u =>
        obtain ⟨i, hi⟩ := Option.isSome_iff_exists.mp (h u (List.mem_of_find?_eq_some hf1))
        simp [hf1, hi] at hnone
      | none =>
        cases hf2 : (u0 :: rest).find?
            (fun u => normName u.name != "" && normName u.name == pyLower (pyStrip q)) with
        | some u =>
          obtain ⟨i, hi⟩ := Option.isSome_iff_exists.mp (h u (List.mem_of_find?_eq_some hf2))
          simp [hf1, hf2, hi] at hnone
        | none =>
          obtain ⟨i, hi⟩ := Option.isSome_iff_exists.mp (h u0 (List.mem_cons_self _ _))
          simp [hf1, hf2, hi] at hnone
  · rintro rfl
    rfl

/-- Witness for C3 at a concrete input: a one-element result collection is
not mapped to the no-id outcome. -/
theorem claim_C3_witness :
    (choose_user_id [⟨some 5, "alice", "a@b"⟩] "zzz" = none
      ↔ ([⟨some 5, "alice", "a@b"⟩] : List UserJ) = []) :=
  claim_C3_user_resolver_notfound_iff_empty [⟨some 5, "alice", "a@b"⟩] "zzz" (by decide)

/-- C4 counterexample: with users `[{id 1, name "y", email "b"}, {id 2,
name "z", email "a"}]` and query `" a "`, no user's email (or name) equals
the query case-insensitively, so the claim's three-tier rule falls through
to the first element, id `1`; the code strips whitespace before comparing
and therefore picks id `2` via the email tier. -/
theorem claim_C4_counterexample :
    user_resolve_per_claim [⟨some 1, "y", "b"⟩, ⟨some 2, "z", "a"⟩] " a " = some 1
    ∧ choose_user_id [⟨some 1, "y", "b"⟩, ⟨some 2, "z", "a"⟩] " a " = some 2
    ∧ (∀ u ∈ ([⟨some 1, "y", "b"⟩, ⟨some 2, "z", "a"⟩] : List UserJ),
        ¬ pyLower u.email = pyLower " a ") := by
  exact ⟨by decide, by decide, by decide⟩

/-- C4 (amended): under the spec's data model (ids present), the resolver
is exactly the three-tier rule with both sides whitespace-stripped and
lowercased and empty stripped emails/names never matching; in particular a
unique (stripped, lowered) email match is chosen regardless of name
matches or position. -/
theorem claim_C4_amended_three_tier :
    (∀ (users : List UserJ) (q : String),
      (∀ u ∈ users, (u.id).isSome) →
      choose_user_id users q = user_resolve_normalized users q)
    ∧ (∀ (users : List UserJ) (q : String) (u : UserJ) (i : Int),
      (∀ x ∈ users, (x.id).isSome) →
      u ∈ users → u.id = some i →
      normName u.email ≠ "" → normName u.email = normName q →
      (∀ x ∈ users, normName x.email = normName q → x = u) →
      choose_user_id users q = some i) := by
  constructor
  · intro users q h
    cases users with
    | nil => rfl
    | cons u0 rest =>
      simp only [choose_user_id, user_resolve_normalized, normName]
      cases hf1 : (u0 :: rest).find?
          (fun u => pyLower (pyStrip u.email) != ""
            && pyLower (pyStrip u.email) == pyLower (pyStrip q)) with
      | some u =>
        obtain ⟨i, hi⟩ := Option.isSome_iff_exists.mp (h u (List.mem_of_find?_eq_some hf1))
        simp [hf1, hi]
      | none =>
        cases hf2 : (u0 :: rest).find?
            (fun u => pyLower (pyStrip u.name) != ""
              && pyLower (pyStrip u.name) == pyLower (pyStrip q)) with
        | some u =>
          obtain ⟨i, hi⟩ := Option.isSome_iff_exists.mp (h u (List.mem_of_find?_eq_some hf2))
          simp [hf1, hf2, hi]
        | none =>
          simp [hf1, hf2, List.head?]
  · intro users q u i h hmem hid hne hmatch huniq
    have hfind : users.find?
        (fun x => normName x.email != "" && normName x.email == pyLower (pyStrip q))
          = some u := by
      apply find?_eq_some_of_unique _ _ u hmem
      · simp only [Bool.and_eq_true, bne_iff_ne, ne_eq, beq_iff_eq]
        exact ⟨hne, hmatch⟩
      · intro x hx hpx
        simp only [Bool.and_eq_true, bne_iff_ne, ne_eq, beq_iff_eq] at hpx
        exact huniq x hx hpx.2
    cases users with
    | nil => cases hmem
    | cons u0 rest =>
      simp only [choose_user_id]
      simp [hfind, hid]

/-- Witness for C4's amended theorem at concrete inputs: the code agrees
with the normalised three-tier rule, and a unique case-insensitive email
match (`"a@b"` for query `"A@B"`) wins over position. -/
theorem claim_C4_witness :
    choose_user_id [⟨some 1, "bob", "x@y"⟩, ⟨some 2, "q", "a@b"⟩] "A@B"
        = user_resolve_normalized [⟨some 1, "bob", "x@y"⟩, ⟨some 2, "q", "a@b"⟩] "A@B"
    ∧ choose_user_id [⟨some 1, "bob", "x@y"⟩, ⟨some 2, "q", "a@b"⟩] "A@B" = some 2 := by
  constructor
  · exact claim_C4_amended_three_tier.1 [⟨some 1, "bob", "x@y"⟩, ⟨some 2, "q", "a@b"⟩]
      "A@B" (by decide)
  · exact claim_C4_amended_three_tier.2 [⟨some 1, "bob", "x@y"⟩, ⟨some 2, "q", "a@b"⟩]
      "A@B" ⟨some 2, "q", "a@b"⟩ 2 (by decide) (by decide) (by decide) (by decide)
      (by decide) (by decide)

/-- C7 counterexample: the standalone issue-type-by-name lookup, given the
one-type listing `[{id 1, name "bug"}]` and the absent name `"task"`,
returns its not-found error, which carries only the queried name — the raw
issue-type listing is not attached as diagnostic context (the error dict
built at that return site has no `details` entry). -/
theorem claim_C7_counterexample :
    fr_get_issue_type_by_name_core [⟨some 1, "bug"⟩] "task"
      = .error (.notFound "task") := by
  rfl

/-- C7 (amended): when no issue type's normalised name matches, the
create-task resolution returns a not-found error carrying the raw listing
as diagnostic context, while the standalone issue-type-by-name tool
returns a bare not-found error without the listing. -/
theorem claim_C7_amended_notfound_details :
    (∀ (ur : Except FetchErr (List UserJ)) (t : String) (d : Option String)
        (a : Option Int) (s : Option String) (dd : Option String)
        (itn usr : Option String) (af : Dict JVal) (resp : IssueTypesResp),
      (∀ ty ∈ resp.issue_types,
        normName ty.name ≠ normName (effective_issue_type_name itn)) →
      fr_create_task (.ok resp) ur t d a s dd itn usr af
        = .error (.issueTypeNotFound (effective_issue_type_name itn) resp))
    ∧ (∀ (data : List IssueTypeJ) (name : String),
      (∀ ty ∈ data, normName ty.name ≠ normName name) →
      fr_get_issue_type_by_name_core data name = .error (.notFound name)) := by
  constructor
  · intro ur t d a s dd itn usr af resp hnomatch
    have hmid : issue_type_match_id resp.issue_types
        (normName (effective_issue_type_name itn)) = none := by
      unfold issue_type_match_id
      rw [List.find?_eq_none.mpr]
      intro ty hty
      simp only [beq_iff_eq]
      exact hnomatch ty hty
    simp [fr_create_task, hmid]
  · intro data name hnomatch
    unfold fr_get_issue_type_by_name_core
    rw [List.find?_eq_none.mpr]
    intro ty hty
    simp only [beq_iff_eq]
    exact hnomatch ty hty

/-- Witness for C7's amended theorem at concrete inputs. -/
theorem claim_C7_witness :
    fr_create_task (.ok ⟨[⟨some 1, "bug"⟩]⟩) (.ok []) "t" none none none none none none []
        = .error (.issueTypeNotFound "task" ⟨[⟨some 1, "bug"⟩]⟩)
    ∧ fr_get_issue_type_by_name_core [⟨some 1, "bug"⟩] "epic"
        = .error (.notFound "epic") := by
  constructor
  · exact claim_C7_amended_notfound_details.1 (.ok []) "t" none none none none none none
      [] ⟨[⟨some 1, "bug"⟩]⟩ (by decide)
  · exact claim_C7_amended_notfound_details.2 [⟨some 1, "bug"⟩] "epic" (by decide)

/-- C1: the batch key-to-id resolvers are order-preserving and fail-fast:
(1) when every issue key resolves, the batch returns exactly the per-key
ids in input order; (2) when a key fails (remote error or id-less
response) after a fully-resolving prefix, the whole batch is that key's
failure — no partial list escapes; (3)/(4) the same for the test-case
resolution loop; (5) the composite link operation's mutating call is
issued only when both batches fully succeeded, and its body holds exactly
their outputs. -/
theorem claim_C1_batch_fail_fast :
    (∀ (K : Type) (fetch : K → Except FetchErr JVal) (keys : List K),
      (∀ k ∈ keys, (keyId fetch k).isSome) →
      issue_ids_from_keys fetch keys = .ok (keys.filterMap (keyId fetch)))
    ∧ (∀ (K : Type) (fetch : K → Except FetchErr JVal) (ks1 : List K) (k : K) (ks2 : List K),
      (∀ x ∈ ks1, (keyId fetch x).isSome) → keyId fetch k = none →
      issue_ids_from_keys fetch (ks1 ++ k :: ks2) = .error (keyFailure fetch k))
    ∧ (∀ (K : Type) (fetch : K → Except FetchErr JVal) (keys : List K),
      (∀ k ∈ keys, (keyId fetch k).isSome) →
      testcase_ids_from_keys fetch keys = .ok (keys.filterMap (keyId fetch)))
    ∧ (∀ (K : Type) (fetch : K → Except FetchErr JVal) (ks1 : List K) (k : K) (ks2 : List K),
      (∀ x ∈ ks1, (keyId fetch x).isSome) → keyId fetch k = none →
      testcase_ids_from_keys fetch (ks1 ++ k :: ks2) = .error (keyFailure fetch k))
    ∧ (∀ (K : Type) (fetchTC fetchIssue : K → Except FetchErr JVal)
        (testcase_keys issue_keys : List K) (p : LinkPayload),
      fr_link_testcase_issues fetchTC fetchIssue testcase_keys issue_keys = .ok p →
      testcase_ids_from_keys fetchTC testcase_keys = .ok p.ids
        ∧ issue_ids_from_keys fetchIssue issue_keys = .ok p.issue_ids) := by
  refine ⟨?_, ?_, ?_, ?_, ?_⟩
  · intro K fetch keys h
    induction keys with
    | nil => rfl
    | cons k ks ih =>
      obtain ⟨i, hi⟩ := Option.isSome_iff_exists.mp (h k (List.mem_cons_self _ _))
      have hrest := ih (fun x hx => h x (List.mem_cons_of_mem _ hx))
      cases hfk : fetch k with
      | error e => simp [keyId, hfk] at hi
      | ok data =>
        have hgid : jGetId data = some i := by simpa [keyId, hfk] using hi
        have hki : keyId fetch k = some i := by simp [keyId, hfk, hgid]
        simp [issue_ids_from_keys, hfk, hgid, hrest, List.filterMap_cons, hki]
  · intro K fetch ks1 k ks2 h hfail
    induction ks1 with
    | nil =>
      cases hfk : fetch k with
      | error e => simp [issue_ids_from_keys, hfk, keyFailure]
      | ok data =>
        have hgid : jGetId data = none := by simpa [keyId, hfk] using hfail
        simp [issue_ids_from_keys, hfk, hgid, keyFailure]
    | cons x xs ih =>
      obtain ⟨i, hi⟩ := Option.isSome_iff_exists.mp (h x (List.mem_cons_self _ _))
      have htail := ih (fun y hy => h y (List.mem_cons_of_mem _ hy))
      cases hfx : fetch x with
      | error e => simp [keyId, hfx] at hi
      | ok data =>
        have hgid : jGetId data = some i := by simpa [keyId, hfx] using hi
        simp [issue_ids_from_keys, hfx, hgid, htail]
  · intro K fetch keys h
    induction keys with
    | nil => rfl
    | cons k ks ih =>
      obtain ⟨i, hi⟩ := Option.isSome_iff_exists.mp (h k (List.mem_cons_self _ _))
      have hrest := ih (fun x hx => h x (List.mem_cons_of_mem _ hx))
      cases hfk : fetch k with
      | error e => simp [keyId, hfk] at hi
      | ok data =>
        have hgid : jGetId data = some i := by simpa [keyId, hfk] using hi
        have hki : keyId fetch k = some i := by simp [keyId, hfk, hgid]
        simp [testcase_ids_from_keys, testcase_id_from_key, hfk, hgid, hrest,
          List.filterMap_cons, hki]
  · intro K fetch ks1 k ks2 h hfail
    induction ks1 with
    | nil =>
      cases hfk : fetch k with
      | error e => simp [testcase_ids_from_keys, testcase_id_from_key, hfk, keyFailure]
      | ok data =>
        have hgid : jGetId data = none := by simpa [keyId, hfk] using hfail
        simp [testcase_ids_from_keys, testcase_id_from_key, hfk, hgid, keyFailure]
    | cons x xs ih =>
      obtain ⟨i, hi⟩ := Option.isSome_iff_exists.mp (h x (List.mem_cons_self _ _))
      have htail := ih (fun y hy => h y (List.mem_cons_of_mem _ hy))
      cases hfx : fetch x with
      | error e => simp [keyId, hfx] at hi
      | ok data =>
        have hgid : jGetId data = some i := by simpa [keyId, hfx] using hi
        simp [testcase_ids_from_keys, testcase_id_from_key, hfx, hgid, htail]
  · intro K fetchTC fetchIssue tkeys ikeys p hok
    unfold fr_link_testcase_issues at hok
    cases h1 : testcase_ids_from_keys fetchTC tkeys with
    | error e => simp [h1] at hok
    | ok tids =>
      cases h2 : issue_ids_from_keys fetchIssue ikeys with
      | error e => simp [h1, h2] at hok
      | ok iids =>
        simp only [h1, h2, Except.ok.injEq] at hok
        subst hok
        exact ⟨rfl, rfl⟩

/-- Witness for C1 at concrete inputs: a fully-resolving batch returns
the ids in input order; a batch whose second key yields an id-less
response aborts with that malformed response; the composite link call's
body carries exactly the two batch outputs. -/
theorem claim_C1_witness :
    issue_ids_from_keys exFetchGood [3, 1, 2] = .ok [3, 1, 2]
    ∧ issue_ids_from_keys exFetchPartial [1, 0, 2] = .error (.malformed (.jobj []))
    ∧ testcase_ids_from_keys exFetchGood [5, 4] = .ok [5, 4]
    ∧ testcase_ids_from_keys exFetchPartial [1, 0] = .error (.malformed (.jobj []))
    ∧ (testcase_ids_from_keys exFetchGood [5] = .ok (LinkPayload.mk [5] [7]).ids
        ∧ issue_ids_from_keys exFetchGood [7] = .ok (LinkPayload.mk [5] [7]).issue_ids) := by
  refine ⟨?_, ?_, ?_, ?_, ?_⟩
  · exact claim_C1_batch_fail_fast.1 Nat exFetchGood [3, 1, 2] (by decide)
  · exact claim_C1_batch_fail_fast.2.1 Nat exFetchPartial [1] 0 [2] (by decide) (by decide)
  · exact claim_C1_batch_fail_fast.2.2.1 Nat exFetchGood [5, 4] (by decide)
  · exact claim_C1_batch_fail_fast.2.2.2.1 Nat exFetchPartial [1] 0 [] (by decide) (by decide)
  · exact claim_C1_batch_fail_fast.2.2.2.2 Nat exFetchGood exFetchGood [5] [7]
      (LinkPayload.mk [5] [7]) rfl

theorem foldl_max_le (xs : List Nat) (a B : Nat) (ha : a ≤ B)
    (hxs : ∀ x ∈ xs, x ≤ B) : xs.foldl Nat.max a ≤ B := by
  induction xs generalizing a with
  | nil => exact ha
  | cons x xs ih =>
    exact ih (Nat.max a x) (Nat.max_le.mpr ⟨ha, hxs x (List.mem_cons_self _ _)⟩)
      (fun y hy => hxs y (List.mem_cons_of_mem _ hy))

/-- C5: membership in the section walk's result is exactly the existence
of a branch matching the whole path (so the result is the union of ids
over all matching branches, and it is empty — not an error — when no
branch matches); on the spec's example forest, `"A > B > C"` resolves to
both `C` ids, and a path matching no branch resolves to `[]`. -/
theorem claim_C5_section_union_semantics :
    (∀ (hierarchy : Int → List SectionJ) (path : List String) (l : List SectionJ) (i : Int),
      path ≠ [] →
      (i ∈ find_sections_by_path hierarchy path l ↔ MatchesPath hierarchy path l i))
    ∧ resolve_section_hierarchy_to_ids sampleForest "A > B > C" = [4, 5]
    ∧ resolve_section_hierarchy_to_ids sampleForest "A > Z" = [] := by
  refine ⟨?_, by decide, by decide⟩
  intro hierarchy path
  induction path with
  | nil => exact fun l i h => absurd rfl h
  | cons p rest ih =>
    intro l i hne
    cases rest with
    | nil =>
      simp only [find_sections_by_path, List.mem_flatMap]
      constructor
      · rintro ⟨s, hs, hin⟩
        by_cases hname : normName s.name = pyLower p
        · rw [if_pos hname] at hin
          cases hid : s.id with
          | none => rw [hid] at hin; cases hin
          | some j =>
            rw [hid] at hin
            simp only [List.mem_singleton] at hin
            subst hin
            exact MatchesPath.last p l s _ hs hname hid
        · rw [if_neg hname] at hin
          cases hin
      · intro hm
        cases hm with
        | last p l s i hs hname hid =>
          exact ⟨s, hs, by rw [if_pos hname, hid]; exact List.mem_singleton.mpr rfl⟩
        | step p rest l s j i hrne hs hname hid hrec => exact absurd rfl hrne
    | cons q rest' =>
      simp only [find_sections_by_path, List.mem_flatMap]
      constructor
      · rintro ⟨s, hs, hin⟩
        by_cases hname : normName s.name = pyLower p
        · rw [if_pos hname] at hin
          cases hid : s.id with
          | none => rw [hid] at hin; cases hin
          | some j =>
            rw [hid] at hin
            exact MatchesPath.step p (q :: rest') l s j i (by simp) hs hname hid
              ((ih (hierarchy j) i (by simp)).mp hin)
        · rw [if_neg hname] at hin
          cases hin
      · intro hm
        cases hm with
        | step p rest l s j i hrne hs hname hid hrec =>
          exact ⟨s, hs, by
            rw [if_pos hname, hid]
            exact (ih (hierarchy j) i (by simp)).mpr hrec⟩

/-- Witness for C5's characterisation at a concrete input: id `4` is in
the walk's result over the example forest exactly because a branch
matches, and the theorem converts the computed membership into the
declarative branch witness. -/
theorem claim_C5_witness :
    MatchesPath (section_children sampleForest) ["A", "B", "C"]
      (section_roots sampleForest) 4 :=
  (claim_C5_section_union_semantics.1 (section_children sampleForest) ["A", "B", "C"]
    (section_roots sampleForest) 4 (by decide)).mp (by decide)

/-- C8: the section walk's recursion depth is bounded by the number of
path segments whatever the shape of the section data (dangling parents or
parent cycles included) — the recursion consumes one segment per level —
and malformed data yields an empty result rather than a failure: a
dangling-parent section contributes no matches, and a self-referential
(cyclic) section is simply never reached. -/
theorem claim_C8_termination_depth_bound :
    (∀ (hierarchy : Int → List SectionJ) (path : List String) (l : List SectionJ),
      path ≠ [] → find_sections_depth hierarchy path l ≤ path.length)
    ∧ resolve_section_hierarchy_to_ids [⟨some 1, "a", some 99⟩] "a" = []
    ∧ resolve_section_hierarchy_to_ids
        [⟨some 1, "a", none⟩, ⟨some 2, "b", some 1⟩, ⟨some 3, "b", some 3⟩] "a > b"
        = [2] := by
  refine ⟨?_, by decide, by decide⟩
  intro hierarchy path
  induction path with
  | nil => exact fun l h => absurd rfl h
  | cons p rest ih =>
    intro l _
    simp only [find_sections_depth, List.length_cons]
    have key : ∀ (f : SectionJ → Nat), (∀ x ∈ l.map f, x ≤ rest.length) →
        1 + (l.map f).foldl Nat.max 0 ≤ rest.length + 1 := by
      intro f hf
      have := foldl_max_le (l.map f) 0 rest.length (Nat.zero_le _) hf
      omega
    apply key
    intro x hx
    obtain ⟨s, _, rfl⟩ := List.mem_map.mp hx
    by_cases hname : normName s.name = pyLower p
    · rw [if_pos hname]
      cases s.id with
      | none => exact Nat.zero_le _
      | some j =>
        cases rest with
        | nil => exact Nat.le_refl 0
        | cons q rest' => exact ih (hierarchy j) (by simp)
    · rw [if_neg hname]
      exact Nat.zero_le _

/-- Witness for C8's depth bound at a concrete input: on a cyclic
hierarchy (a section that is its own parent) the walk of a two-segment
path still uses depth at most two. -/
theorem claim_C8_witness :
    find_sections_depth
      (section_children [⟨some 1, "a", none⟩, ⟨some 3, "b", some 3⟩]) ["a", "b"]
      (section_roots [⟨some 1, "a", none⟩, ⟨some 3, "b", some 3⟩]) ≤ 2 :=
  claim_C8_termination_depth_bound.1
    (section_children [⟨some 1, "a", none⟩, ⟨some 3, "b", some 3⟩]) ["a", "b"]
    (section_roots [⟨some 1, "a", none⟩, ⟨some 3, "b", some 3⟩]) (by decide)

theorem testrun_resolve_paths_ok (sections : List SectionJ) (paths : List String) :
    testrun_resolve_paths (.ok sections) paths
      = .ok ((paths.flatMap (fun path => resolve_section_hierarchy_to_ids sections path)).map
          (fun sid => toString sid)) := by
  induction paths with
  | nil => rfl
  | cons path rest ih =>
    simp [testrun_resolve_paths, ih, List.flatMap_cons, List.map_append]

/-- C6: in populate-test-run, the `section_subtree_ids` of the mutating
call's body is exactly the concatenation, in path order, of the ids
resolved from `section_hierarchy_paths` with the caller-supplied
`section_subtree_ids`, every element stringified and nothing deduplicated;
absent optional inputs default to empty collections, and the spec's
`["A > B"] ↦ 5` with caller `[7]` example merges to `["5", "7"]`. -/
theorem claim_C6_testrun_subtree_merge :
    (∀ (fetchTC : StrInt → Except FetchErr JVal) (sections : List SectionJ)
        (keys : List StrInt) (pl : List String) (ci : List StrInt)
        (si : Option (List StrInt)) (fr : Option (List JVal)) (p : TestRunPayload),
      fr_add_testcases_to_testrun fetchTC (.ok sections) keys (some pl) (some ci) si fr
          = .ok p →
      p.section_subtree_ids
        = (pl.flatMap (fun path => resolve_section_hierarchy_to_ids sections path)).map
            (fun sid => toString sid) ++ ci.map strIntStr)
    ∧ (∀ (fetchTC : StrInt → Except FetchErr JVal)
        (fetchSections : Except FetchErr (List SectionJ)) (keys : List StrInt)
        (p : TestRunPayload),
      fr_add_testcases_to_testrun fetchTC fetchSections keys none none none none = .ok p →
      p.section_subtree_ids = [] ∧ p.section_ids = [] ∧ p.filter_rule = [])
    ∧ fr_add_testcases_to_testrun (fun _ => .error (.httpStatus 500)) (.ok c6Sections) []
        (some ["A > B"]) (some [.ofInt 7]) none none
        = .ok ⟨[], [], ["5", "7"], []⟩ := by
  refine ⟨?_, ?_, by rfl⟩
  · intro fetchTC sections keys pl ci si fr p hok
    unfold fr_add_testcases_to_testrun at hok
    cases h1 : testrun_resolve_testcases fetchTC keys with
    | error e => simp [h1] at hok
    | ok rtc =>
      simp only [h1, testrun_resolve_paths_ok, Except.ok.injEq] at hok
      subst hok
      rfl
  · intro fetchTC fetchSections keys p hok
    unfold fr_add_testcases_to_testrun at hok
    cases h1 : testrun_resolve_testcases fetchTC keys with
    | error e => simp [h1] at hok
    | ok rtc =>
      simp only [h1, testrun_resolve_paths, Except.ok.injEq] at hok
      subst hok
      exact ⟨rfl, rfl, rfl⟩

/-- Witness for C6 at concrete inputs: the merged `section_subtree_ids`
of the `["A > B"]`-plus-`[7]` example is `["5", "7"]`, and with all
optional inputs absent the payload's collections are empty. -/
theorem claim_C6_witness :
    (TestRunPayload.mk [] [] ["5", "7"] []).section_subtree_ids
        = (["A > B"].flatMap (fun path => resolve_section_hierarchy_to_ids c6Sections path)).map
            (fun sid => toString sid) ++ [StrInt.ofInt 7].map strIntStr
    ∧ ((TestRunPayload.mk [] [] [] []).section_subtree_ids = []
        ∧ (TestRunPayload.mk [] [] [] []).section_ids = []
        ∧ (TestRunPayload.mk [] [] [] []).filter_rule = []) := by
  constructor
  · exact claim_C6_testrun_subtree_merge.1 (fun _ => .error (.httpStatus 500)) c6Sections
      [] ["A > B"] [.ofInt 7] none none _ rfl
  · exact claim_C6_testrun_subtree_merge.2.1 (fun _ => .error (.httpStatus 500))
      (.ok []) [] _ rfl

end FreshreleaseMCP
